import Mathlib

/-!
Verification development for the librtraceroute library (src/lib.rs).

The file shallowly embeds the parts of the library that the checked
properties talk about:

* the configuration constructor `TraceRoute.new` (src lines 63-128);
* the probe builders `buildUdpSendV4` (lines 160-203), `buildIcmpSendV4`
  (lines 244-279) and `buildUdpSendV6` (lines 205-242), together with the
  pnet packet structures they populate;
* the trace engines `start_trace_route_on_v4` (lines 326-486) and
  `start_trace_route_on_v6` (lines 488-647), embedded as the step
  functions `stepV4` / `stepV6` and the loop `runLoop` over a list of
  receive outcomes.

Machine integers are modelled as `Nat` with an explicit `% 2 ^ w`
wherever the Rust code can overflow (u8 `i += 1`, u16 `tries -= 1`,
`port + i as u16`, `size as u16`, and the masked bit-fields written by
the pnet setters).  Rust strings are modelled as lists of Unicode code
points (`List Nat`).  Fallible or panicking code returns `Option` or
`Except`; `none` marks a panic of the Rust original.
-/

/-- Protocols supported for route tracing (src enum `TraceRouteProtocol`). -/
inductive TraceRouteProtocol where
  | Icmp
  | Udp
deriving DecidableEq, Repr

/-- An IPv4 address as its four octets (std `Ipv4Addr`; each octet is a u8). -/
structure Ipv4Addr where
  a : Nat
  b : Nat
  c : Nat
  d : Nat
deriving DecidableEq, Repr

/-- The octets of an `Ipv4Addr` fit in a u8 (always true of the Rust value). -/
def Ipv4Addr.valid (x : Ipv4Addr) : Prop :=
  x.a < 256 ∧ x.b < 256 ∧ x.c < 256 ∧ x.d < 256

instance (x : Ipv4Addr) : Decidable x.valid := by
  unfold Ipv4Addr.valid; infer_instance

/-- An IPv6 address as its eight 16-bit segments (std `Ipv6Addr`). -/
structure Ipv6Addr where
  s0 : Nat
  s1 : Nat
  s2 : Nat
  s3 : Nat
  s4 : Nat
  s5 : Nat
  s6 : Nat
  s7 : Nat
deriving DecidableEq, Repr

/-- Either kind of target address (std `IpAddr`). -/
inductive IpAddress where
  | v4 (x : Ipv4Addr)
  | v6 (x : Ipv6Addr)
deriving DecidableEq, Repr

/-- Configuration errors of `TraceRoute::new`.  The source reports them as the
strings "BAD MAX TTL", "BAD START TTL", "BAD SIZE - MIN=12" and
"BAD TIMEOUT"; the spec names them BadMaxTtl, BadBeginTtl, BadSize and
BadTimeout.  The four distinct messages are modelled by this enumeration. -/
inductive ConfigErr where
  | BadMaxTtl
  | BadBeginTtl
  | BadSize
  | BadTimeout
deriving DecidableEq, Repr

/-- The validated trace descriptor (src struct `TraceRoute`; the
`results_sender` channel handle is not part of the value model). -/
structure TraceRoute where
  max_ttl : Nat
  max_tries : Nat
  begin_ttl : Nat
  address : IpAddress
  port : Nat
  timeout : Nat
  size : Nat
  protocol : TraceRouteProtocol
deriving DecidableEq, Repr

/-- Constructor `TraceRoute::new` (src lines 63-128).  Defaults are
max_ttl 30, begin_ttl 1, max_tries 4, port 33434, timeout 200, size 64,
protocol Udp.  The checks run in source order: a supplied max_ttl below 1
fails first, then a supplied begin_ttl above the (possibly updated)
max_ttl, then a supplied size below 12, then a supplied timeout of 0.
Supplied max_tries, port and protocol are accepted unconditionally.
An `Except.error` value means the Rust function returned `Err` and hence
no worker thread can ever be spawned from this call. -/
def TraceRoute.new (max_ttl begin_ttl : Option Nat) (max_tries : Option Nat)
    (timeout : Option Nat) (port : Option Nat) (size : Option Nat)
    (addr : IpAddress) (protocol : Option TraceRouteProtocol) :
    Except ConfigErr TraceRoute :=
  if (match max_ttl with
      | some mt => decide (mt < 1)
      | none => false) then
    Except.error ConfigErr.BadMaxTtl
  else
    let v_max := max_ttl.getD 30
    if (match begin_ttl with
        | some bt => decide (v_max < bt)
        | none => false) then
      Except.error ConfigErr.BadBeginTtl
    else
      let v_begin := begin_ttl.getD 1
      let v_tries := max_tries.getD 4
      let v_port := port.getD 33434
      if (match size with
          | some s => decide (s < 12)
          | none => false) then
        Except.error ConfigErr.BadSize
      else
        let v_size := size.getD 64
        if (match timeout with
            | some t => decide (t = 0)
            | none => false) then
          Except.error ConfigErr.BadTimeout
        else
          Except.ok
            { max_ttl := v_max, max_tries := v_tries, begin_ttl := v_begin,
              address := addr, port := v_port, timeout := timeout.getD 200,
              size := v_size, protocol := protocol.getD TraceRouteProtocol.Udp }

/-! ### Strings

Rust strings are modelled as lists of Unicode code points.  The relevant
code points: 46 is the dot, 58 is the colon, 48-57 are the decimal digits,
97-102 are the lowercase hex letters. -/

/-- Code point of the decimal digit d (for d below 10). -/
def decChar (d : Nat) : Nat := 48 + d

/-- Code point of the dot character. -/
def dotChar : Nat := 46

/-- Code point of the colon character. -/
def colonChar : Nat := 58

/-- Decimal rendering of a u8 value, as produced by the Rust `Display`
implementation for u8: one to three digits, no leading zeros.  (Only
values below 256 ever reach this function in the model, matching the u8
type of the Rust octets.) -/
def natToDecChars (n : Nat) : List Nat :=
  if n < 10 then [decChar n]
  else if n < 100 then [decChar (n / 10), decChar (n % 10)]
  else [decChar (n / 100), decChar (n / 10 % 10), decChar (n % 10)]

/-- Display of an `Ipv4Addr` as "a.b.c.d" (std `Display for Ipv4Addr`). -/
def ipv4ToChars (x : Ipv4Addr) : List Nat :=
  natToDecChars x.a ++ dotChar :: natToDecChars x.b ++ dotChar ::
    natToDecChars x.c ++ dotChar :: natToDecChars x.d

/-- Decimal digit test on code points. -/
def isDecDigit (c : Nat) : Bool := decide (48 ≤ c ∧ c ≤ 57)

/-- Longest prefix of decimal digits together with the rest of the string
(the greedy digit scan of std `Parser::read_number`). -/
def spanDigits : List Nat → List Nat × List Nat
  | [] => ([], [])
  | c :: cs =>
    if isDecDigit c then (c :: (spanDigits cs).1, (spanDigits cs).2)
    else ([], c :: cs)

/-- Numeric value of a list of decimal digit code points. -/
def decValue (ds : List Nat) : Nat :=
  ds.foldl (fun acc c => acc * 10 + (c - 48)) 0

/-- Validity of one parsed octet group, as enforced by std
`Ipv4Addr::from_str`: nonempty, at most three digits, no leading zero
(unless the group is the single digit 0), and value at most 255 (the
u8 overflow check). -/
def octetOk (ds : List Nat) : Bool :=
  decide (ds ≠ []) && decide (ds.length ≤ 3) &&
    (decide (ds.length = 1) || decide (ds.headD 0 ≠ 48)) &&
    decide (decValue ds ≤ 255)

/-- Parse one octet from the front of a string; returns the value and the
unconsumed rest. -/
def parseOctet (s : List Nat) : Option (Nat × List Nat) :=
  let p := spanDigits s
  if octetOk p.1 then some (decValue p.1, p.2) else none

/-- Consume one dot separator from the front of a string. -/
def expectDot : List Nat → Option (List Nat)
  | [] => none
  | c :: r => if c = dotChar then some r else none

/-- Parser of std `Ipv4Addr::from_str`: exactly four octet groups separated
by dots, consuming the entire string. -/
def ipv4FromChars (s : List Nat) : Option Ipv4Addr := do
  let (a, r1) ← parseOctet s
  let r1b ← expectDot r1
  let (b, r2) ← parseOctet r1b
  let r2b ← expectDot r2
  let (c, r3) ← parseOctet r2b
  let r3b ← expectDot r3
  let (d, r4) ← parseOctet r3b
  if r4 = [] then pure ⟨a, b, c, d⟩ else none

/-- Code point of the lowercase hex digit d (for d below 16). -/
def hexChar (d : Nat) : Nat := if d < 10 then 48 + d else 87 + d

/-- Lowercase hex rendering of a u16 value, as Rust `{:x}` formatting:
one to four digits, no leading zeros. -/
def natToHexChars (n : Nat) : List Nat :=
  if n < 16 then [hexChar n]
  else if n < 256 then [hexChar (n / 16), hexChar (n % 16)]
  else if n < 4096 then [hexChar (n / 256), hexChar (n / 16 % 16), hexChar (n % 16)]
  else [hexChar (n / 4096), hexChar (n / 256 % 16), hexChar (n / 16 % 16), hexChar (n % 16)]

/-- The eight segments of an IPv6 address, in order. -/
def Ipv6Addr.segments (x : Ipv6Addr) : List Nat :=
  [x.s0, x.s1, x.s2, x.s3, x.s4, x.s5, x.s6, x.s7]

/-- Longest run of zero segments: scan of the std `Display for Ipv6Addr`
zero-span search (first longest run wins, strict improvement). The
arguments are: remaining segments, current index, current run
(start, length), best run (start, length). -/
def longestZeroRunAux : List Nat → Nat → Nat × Nat → Nat × Nat → Nat × Nat
  | [], _, _, best => best
  | s :: rest, i, cur, best =>
    if s = 0 then
      let cur2 := (if cur.2 = 0 then i else cur.1, cur.2 + 1)
      let best2 := if best.2 < cur2.2 then cur2 else best
      longestZeroRunAux rest (i + 1) cur2 best2
    else
      longestZeroRunAux rest (i + 1) (0, 0) best

/-- Longest run of zero segments of a segment list. -/
def longestZeroRun (l : List Nat) : Nat × Nat :=
  longestZeroRunAux l 0 (0, 0) (0, 0)

/-- Join hex groups with colon separators. -/
def joinColon : List (List Nat) → List Nat
  | [] => []
  | [g] => g
  | g :: gs => g ++ colonChar :: joinColon gs

/-- Display of an `Ipv6Addr` (std `Display for Ipv6Addr`): "::" for the
unspecified address, "::1" for loopback, "::ffff:a.b.c.d" for IPv4-mapped
addresses, and otherwise the eight lowercase hex groups joined by colons
with the longest run of two or more zero groups compressed to "::".
Every branch produces at least one colon. -/
def ipv6ToChars (x : Ipv6Addr) : List Nat :=
  let segs := x.segments
  if segs = [0, 0, 0, 0, 0, 0, 0, 0] then [colonChar, colonChar]
  else if segs = [0, 0, 0, 0, 0, 0, 0, 1] then [colonChar, colonChar, decChar 1]
  else if x.s0 = 0 ∧ x.s1 = 0 ∧ x.s2 = 0 ∧ x.s3 = 0 ∧ x.s4 = 0 ∧ x.s5 = 65535 then
    colonChar :: colonChar :: 102 :: 102 :: 102 :: 102 :: colonChar ::
      ipv4ToChars ⟨x.s6 / 256, x.s6 % 256, x.s7 / 256, x.s7 % 256⟩
  else
    let gs := segs.map natToHexChars
    let r := longestZeroRun segs
    if 1 < r.2 then
      joinColon (gs.take r.1) ++ colonChar :: colonChar :: joinColon (gs.drop (r.1 + r.2))
    else
      joinColon gs

/-! ### Checksums (pnet `util::checksum` and friends)

The internet ones-complement checksum: sum the 16-bit words (the word at
the checksum offset replaced by zero), fold the carries back in, and
complement.  The concrete value is carried through the packet records but
no checked property reads it. -/

/-- Fold the carries of a 16-bit ones-complement sum back in.  The first
argument is fuel; `foldCarry` supplies enough, since every step strictly
decreases a value of at least 65536. -/
def foldCarryAux : Nat → Nat → Nat
  | 0, n => n
  | fuel + 1, n => if n < 65536 then n else foldCarryAux fuel (n % 65536 + n / 65536)

/-- End-around-carry reduction of a checksum accumulator to 16 bits. -/
def foldCarry (n : Nat) : Nat := foldCarryAux n n

/-- Ones-complement of the carried sum of a word list. -/
def onesComplement (ws : List Nat) : Nat := 65535 - foldCarry ws.sum

/-- Big-endian 16-bit words of a byte list (odd trailing byte padded low). -/
def bytesToWords : List Nat → List Nat
  | [] => []
  | [b] => [b * 256]
  | b1 :: b2 :: rest => (b1 * 256 + b2) :: bytesToWords rest

/-! ### Packet records (pnet packet structures)

Each pnet field setter masks its argument to the field width; the records
below therefore store the written value reduced modulo the field width,
exactly as the generated pnet accessors keep it in the byte buffer. -/

/-- A UDP datagram (pnet `MutableUdpPacket` field view). -/
structure UdpPacket where
  source : Nat
  destination : Nat
  length : Nat
  checksum : Nat
  payload : List Nat
deriving DecidableEq, Repr

/-- The 16-bit words of a UDP packet buffer with the checksum word (index 3)
replaced by zero, as pnet `util::checksum` does with skipword 3. -/
def udpWords (u : UdpPacket) : List Nat :=
  u.source :: u.destination :: u.length :: 0 :: bytesToWords u.payload

/-- IPv4 pseudo-header words: source, destination, protocol number and
packet length (pnet `util::ipv4_checksum`). -/
def ipv4PseudoWords (src dst : Ipv4Addr) (protoNum len : Nat) : List Nat :=
  (src.a * 256 + src.b) :: (src.c * 256 + src.d) ::
    (dst.a * 256 + dst.b) :: (dst.c * 256 + dst.d) :: protoNum :: len :: []

/-- UDP checksum with an IPv4 pseudo-header (pnet `udp::ipv4_checksum`).
The packet length is the buffer length, 8 header bytes plus the payload. -/
def udpIpv4Checksum (u : UdpPacket) (src dst : Ipv4Addr) : Nat :=
  onesComplement (ipv4PseudoWords src dst 17 (8 + u.payload.length) ++ udpWords u)

/-- An ICMP Echo Request (pnet `echo_request::MutableEchoRequestPacket`
field view).  The buffer starts zeroed, so fields never set stay 0. -/
structure EchoRequestPacket where
  icmp_type : Nat
  icmp_code : Nat
  checksum : Nat
  identifier : Nat
  sequence_number : Nat
  payload : List Nat
deriving DecidableEq, Repr

/-- ICMP checksum over the whole message with the checksum word (index 1)
zeroed (src `icmp_checksum`, pnet `util::checksum(packet, 1)`). -/
def icmpChecksum (e : EchoRequestPacket) : Nat :=
  onesComplement ((e.icmp_type * 256 + e.icmp_code) :: 0 :: e.identifier ::
    e.sequence_number :: bytesToWords e.payload)

/-- Payload of an IPv4 probe datagram: either a UDP packet or an ICMP Echo
Request. -/
inductive L4Payload where
  | udp (u : UdpPacket)
  | icmpEcho (e : EchoRequestPacket)
deriving DecidableEq, Repr

/-- An IPv4 datagram (pnet `MutableIpv4Packet` field view).  `flags` is the
3-bit flags field and `fragment_offset` the 13-bit offset field; pnet keeps
them separate, and `set_fragment_offset` writes only the low 13 bits of its
argument while leaving `flags` untouched. -/
structure Ipv4Packet where
  version : Nat
  header_length : Nat
  dscp : Nat
  ecn : Nat
  total_length : Nat
  identification : Nat
  flags : Nat
  fragment_offset : Nat
  ttl : Nat
  next_level_protocol : Nat
  checksum : Nat
  source : Ipv4Addr
  destination : Ipv4Addr
  payload : L4Payload
deriving DecidableEq, Repr

/-- Header words of an IPv4 packet with the checksum word (index 5) zeroed,
for the header checksum (pnet `ipv4::checksum`). -/
def ipv4HeaderWords (p : Ipv4Packet) : List Nat :=
  (p.version * 4096 + p.header_length * 256 + p.dscp * 4 + p.ecn) ::
    p.total_length :: p.identification ::
    (p.flags * 8192 + p.fragment_offset) ::
    (p.ttl * 256 + p.next_level_protocol) :: 0 ::
    (p.source.a * 256 + p.source.b) :: (p.source.c * 256 + p.source.d) ::
    (p.destination.a * 256 + p.destination.b) ::
    (p.destination.c * 256 + p.destination.d) :: []

/-- IPv4 header checksum (pnet `ipv4::checksum`). -/
def ipv4HeaderChecksum (p : Ipv4Packet) : Nat := onesComplement (ipv4HeaderWords p)

/-- An IPv6 datagram as built by the v6 UDP builder (pnet
`MutableIpv6Packet` field view, payload restricted to UDP). -/
structure Ipv6Packet where
  version : Nat
  payload_length : Nat
  next_header : Nat
  hop_limit : Nat
  source : Ipv6Addr
  destination : Ipv6Addr
  payload : UdpPacket
deriving DecidableEq, Repr

/-! ### Probe builders -/

/-- Builder `build_udp_send_v4` (src lines 160-203).  `localV4` stands for
the result of `get_ip_addr(true)` (the discovered local IPv4 address as an
`IpAddr`); `rand_source` and `rand_id` are the two `random::<u16>()` draws.
`none` marks a panic: `MutableUdpPacket::new(..).unwrap()` on a buffer
shorter than 8 bytes, `get_ip_addr(true).unwrap()` when no interface is
up, or a failed `.parse::<Ipv4Addr>().unwrap()`.  The UDP checksum uses the
re-parsed display strings of the local and target addresses, and the IPv4
destination (line 193) likewise comes from re-parsing the target string. -/
def buildUdpSendV4 (localV4 : Option Ipv4Addr) (addr : Ipv4Addr)
    (size port ttl : Nat) (my_ip : Ipv4Addr) (rand_source rand_id : Nat) :
    Option Ipv4Packet :=
  if size < 8 then none
  else
    let udp0 : UdpPacket :=
      { source := rand_source % 65536, destination := port % 65536,
        length := size % 65536, checksum := 0,
        payload := List.replicate (size - 8) 0 }
    match localV4 with
    | none => none
    | some l =>
      match ipv4FromChars (ipv4ToChars l) with
      | none => none
      | some lv =>
        match ipv4FromChars (ipv4ToChars addr) with
        | none => none
        | some av =>
          let udp1 := { udp0 with checksum := udpIpv4Checksum udp0 lv av }
          match ipv4FromChars (ipv4ToChars addr) with
          | none => none
          | some ip2 =>
            let p0 : Ipv4Packet :=
              { version := 4 % 16, header_length := 5 % 16, dscp := 0, ecn := 0,
                total_length := (20 + size) % 65536,
                identification := rand_id % 65536,
                flags := 0, fragment_offset := 16384 % 8192,
                ttl := ttl % 256, next_level_protocol := 17, checksum := 0,
                source := my_ip, destination := ip2,
                payload := L4Payload.udp udp1 }
            some { p0 with checksum := ipv4HeaderChecksum p0 }

/-- Builder `build_icmp_send_v4` (src lines 244-279).  `rand_seq`,
`rand_ident` and `rand_id` are the three `random::<u16>()` draws.  The
buffer starts zeroed, so the ICMP code and payload stay zero; the ICMP
type is set to Echo Request (8). -/
def buildIcmpSendV4 (addr : Ipv4Addr) (size ttl : Nat) (my_ip : Ipv4Addr)
    (rand_seq rand_ident rand_id : Nat) : Option Ipv4Packet :=
  if size < 8 then none
  else
    let e0 : EchoRequestPacket :=
      { icmp_type := 8, icmp_code := 0, checksum := 0,
        identifier := rand_ident % 65536, sequence_number := rand_seq % 65536,
        payload := List.replicate (size - 8) 0 }
    let e1 := { e0 with checksum := icmpChecksum e0 }
    match ipv4FromChars (ipv4ToChars addr) with
    | none => none
    | some ip2 =>
      let p0 : Ipv4Packet :=
        { version := 4 % 16, header_length := 5 % 16, dscp := 0, ecn := 0,
          total_length := (20 + size) % 65536,
          identification := rand_id % 65536,
          flags := 0, fragment_offset := 16384 % 8192,
          ttl := ttl % 256, next_level_protocol := 1, checksum := 0,
          source := my_ip, destination := ip2,
          payload := L4Payload.icmpEcho e1 }
      some { p0 with checksum := ipv4HeaderChecksum p0 }

/-- Builder `build_udp_send_v6` (src lines 205-242).  The UDP checksum step
(lines 219-228) calls `udp::ipv4_checksum` with `get_ip_addr(true)` (the
local IPv4 address) and with `addr.to_string().parse::<Ipv4Addr>().unwrap()`
applied to the IPv6 target; the final `set_destination` (line 235-237)
re-parses the target as `Ipv6Addr`, which round-trips and is modelled as
the identity.  `none` marks a panic of the Rust code. -/
def buildUdpSendV6 (localV4 : Option Ipv4Addr) (addr : Ipv6Addr)
    (size port ttl : Nat) (my_ip : Ipv6Addr) (rand_source : Nat) :
    Option Ipv6Packet :=
  if size < 8 then none
  else
    let udp0 : UdpPacket :=
      { source := rand_source % 65536, destination := port % 65536,
        length := size % 65536, checksum := 0,
        payload := List.replicate (size - 8) 0 }
    match localV4 with
    | none => none
    | some l =>
      match ipv4FromChars (ipv4ToChars l) with
      | none => none
      | some lv =>
        match ipv4FromChars (ipv6ToChars addr) with
        | none => none
        | some av =>
          let udp1 := { udp0 with checksum := udpIpv4Checksum udp0 lv av }
          some { version := 6 % 16, payload_length := size % 65536,
                 next_header := 17, hop_limit := ttl % 256,
                 source := my_ip, destination := addr, payload := udp1 }

/-- The send step of one v4 engine iteration (src lines 377-401): UDP mode
sends `build_udp_send_v4(.., packet_size, port + i as u16, i, ..)` with
wrapping u16 addition; ICMP mode sends `build_icmp_send_v4(.., 64, i, ..)`
with the fixed size 64. -/
def sendProbeV4 (proto : TraceRouteProtocol) (localV4 : Option Ipv4Addr)
    (addr : Ipv4Addr) (packet_size port i : Nat) (my_ip : Ipv4Addr)
    (r1 r2 r3 : Nat) : Option Ipv4Packet :=
  match proto with
  | TraceRouteProtocol.Udp =>
    buildUdpSendV4 localV4 addr packet_size ((port + i) % 65536) i my_ip r1 r2
  | TraceRouteProtocol.Icmp =>
    buildIcmpSendV4 addr 64 i my_ip r1 r2 r3

/-- Decode the UDP payload of an IPv4 datagram, when it carries one. -/
def Ipv4Packet.udpPayload (p : Ipv4Packet) : Option UdpPacket :=
  match p.payload with
  | L4Payload.udp u => some u
  | L4Payload.icmpEcho _ => none

/-- Decode the ICMP type of an IPv4 datagram, when it carries an ICMP
message. -/
def Ipv4Packet.icmpType (p : Ipv4Packet) : Option Nat :=
  match p.payload with
  | L4Payload.udp _ => none
  | L4Payload.icmpEcho e => some e.icmp_type

/-! ### Trace engine

The engines `start_trace_route_on_v4` / `start_trace_route_on_v6` loop:
check i against max_ttl, send a probe (sends are assumed to succeed; a
failed send panics the worker in the source), then block on the ICMP
listener with a timeout.  One `RecvOutcome` models the result of that
bounded wait: a packet with its source address, type and elapsed time, or
a timeout (covering both `Ok(None)` and `Err(_)` of
`next_with_timeout`, which the source treats alike).  Responder addresses
only ever get compared for equality, so they are modelled as `Nat`. -/

/-- A hop observation sent on the result channel (src struct `HopFound`). -/
structure HopFound where
  addr : Option Nat
  tries : Nat
  hop_count : Nat
  is_last : Bool
  time : Option Nat
deriving DecidableEq, Repr

/-- One outcome of the bounded receive. -/
inductive RecvOutcome where
  | pkt (addr : Nat) (ty : Nat) (elapsed : Nat)
  | timeout
deriving DecidableEq, Repr

/-- Mutable state of one engine worker: current TTL `i` (u8), retry counter
`tries` (u16), the `has_changed` flag, and the set of responder addresses
seen so far (a `BTreeSet` in the source; only membership and insertion are
used, so a list of inserted addresses suffices). -/
structure EngineState where
  i : Nat
  tries : Nat
  has_changed : Bool
  seen : List Nat
deriving DecidableEq, Repr

/-- Why a run of the loop ended: TTL counter exceeded max_ttl, destination
reached (a `break` out of the receive match), or the supplied list of
receive outcomes was exhausted with the loop still running. -/
inductive StopReason where
  | maxTtl
  | destReached
  | outOfEvents
deriving DecidableEq, Repr

/-- Steps 4-5 of one engine iteration (src lines 470-483 and identically
631-644): unconditionally increment `tries` (u16, wrapping), and if the
result reaches max_tries with `has_changed` false, emit an addressless
observation carrying the incremented counter, reset `tries`, advance `i`
(u8, wrapping) and clear `has_changed`. -/
def post (max_tries : Nat) (s : EngineState) : List HopFound × EngineState :=
  if max_tries ≤ (s.tries + 1) % 65536 ∧ s.has_changed = false then
    ([{ addr := none, tries := (s.tries + 1) % 65536, hop_count := s.i,
        is_last := false, time := none }],
     { s with tries := 0, i := (s.i + 1) % 256, has_changed := false })
  else
    ([], { s with tries := (s.tries + 1) % 65536 })

/-- Receive classification of the v4 engine (src lines 402-469).  A packet
from an already-seen source decrements `tries` only when it is positive.
A new source is inserted into `seen`; ICMP type 11 is an intermediate hop
(emit, set `has_changed`, advance `i` wrapping as a u8, reset `tries`);
otherwise UDP mode treats type 3 and ICMP mode treats type 0 as
destination reached (emit with `is_last` and break, signalled by `none`);
any other type is logged and falls through. -/
def recvClassifyV4 (proto : TraceRouteProtocol) (s : EngineState)
    (a ty elapsed : Nat) : List HopFound × Option EngineState :=
  if a ∈ s.seen then
    ([], some { s with tries := if 0 < s.tries then s.tries - 1 else s.tries })
  else
    if ty = 11 then
      ([{ addr := some a, tries := s.tries, hop_count := s.i, is_last := false,
          time := some elapsed }],
       some { s with
              seen := a :: s.seen, has_changed := true,
              i := (s.i + 1) % 256, tries := 0 })
    else
      match proto with
      | TraceRouteProtocol.Udp =>
        if ty = 3 then
          ([{ addr := some a, tries := s.tries, hop_count := s.i, is_last := true,
              time := some elapsed }], none)
        else ([], some { s with seen := a :: s.seen })
      | TraceRouteProtocol.Icmp =>
        if ty = 0 then
          ([{ addr := some a, tries := s.tries, hop_count := s.i, is_last := true,
              time := some elapsed }], none)
        else ([], some { s with seen := a :: s.seen })

/-- One full v4 iteration after the send: receive classification followed,
unless the loop broke, by `post`.  The second component `none` models the
`break` (destination reached). -/
def stepV4 (proto : TraceRouteProtocol) (max_tries : Nat) (s : EngineState)
    (e : RecvOutcome) : List HopFound × Option EngineState :=
  match e with
  | RecvOutcome.timeout =>
    ((post max_tries { s with has_changed := false }).1,
     some (post max_tries { s with has_changed := false }).2)
  | RecvOutcome.pkt a ty t =>
    match recvClassifyV4 proto s a ty t with
    | (ems, none) => (ems, none)
    | (ems, some s2) =>
      (ems ++ (post max_tries s2).1, some (post max_tries s2).2)

/-- Receive classification of the v6 engine (src lines 564-630).  A packet
from an already-seen source decrements `tries` unconditionally — wrapping
u16 subtraction, `(tries + 65535) % 65536`.  A new source with ICMPv6 type
0 and an address different from the target is an intermediate hop;
otherwise UDP mode treats type 4 and ICMP mode treats type 0 as
destination reached; any other type (including 129, the real ICMPv6 Echo
Reply) is logged as unexpected and falls through. -/
def recvClassifyV6 (proto : TraceRouteProtocol) (ip : Nat) (s : EngineState)
    (a ty elapsed : Nat) : List HopFound × Option EngineState :=
  if a ∈ s.seen then
    ([], some { s with tries := (s.tries + 65535) % 65536 })
  else
    if ty = 0 ∧ a ≠ ip then
      ([{ addr := some a, tries := s.tries, hop_count := s.i, is_last := false,
          time := some elapsed }],
       some { s with
              seen := a :: s.seen, has_changed := true,
              i := (s.i + 1) % 256, tries := 0 })
    else
      match proto with
      | TraceRouteProtocol.Udp =>
        if ty = 4 then
          ([{ addr := some a, tries := s.tries, hop_count := s.i, is_last := true,
              time := some elapsed }], none)
        else ([], some { s with seen := a :: s.seen })
      | TraceRouteProtocol.Icmp =>
        if ty = 0 then
          ([{ addr := some a, tries := s.tries, hop_count := s.i, is_last := true,
              time := some elapsed }], none)
        else ([], some { s with seen := a :: s.seen })

/-- One full v6 iteration after the send. -/
def stepV6 (proto : TraceRouteProtocol) (max_tries ip : Nat) (s : EngineState)
    (e : RecvOutcome) : List HopFound × Option EngineState :=
  match e with
  | RecvOutcome.timeout =>
    ((post max_tries { s with has_changed := false }).1,
     some (post max_tries { s with has_changed := false }).2)
  | RecvOutcome.pkt a ty t =>
    match recvClassifyV6 proto ip s a ty t with
    | (ems, none) => (ems, none)
    | (ems, some s2) =>
      (ems ++ (post max_tries s2).1, some (post max_tries s2).2)

/-- The engine loop (src lines 365-484 and 527-645, identical up to the
step function): while the TTL counter is within max_ttl, consume one
receive outcome per iteration; when `end_ttl < i`, emit the terminal
observation `{addr: none, hop_count: i, tries, is_last: true, time: none}`
and stop.  Returns the emissions in order, why the loop stopped, and the
state at the stop. -/
def runLoop (step : EngineState → RecvOutcome → List HopFound × Option EngineState)
    (end_ttl : Nat) :
    EngineState → List RecvOutcome → List HopFound × StopReason × EngineState
  | s, [] =>
    if end_ttl < s.i then
      ([{ addr := none, tries := s.tries, hop_count := s.i, is_last := true,
          time := none }],
       StopReason.maxTtl, s)
    else ([], StopReason.outOfEvents, s)
  | s, e :: rest =>
    if end_ttl < s.i then
      ([{ addr := none, tries := s.tries, hop_count := s.i, is_last := true,
          time := none }],
       StopReason.maxTtl, s)
    else
      match step s e with
      | (ems, none) => (ems, StopReason.destReached, s)
      | (ems, some s2) =>
        (ems ++ (runLoop step end_ttl s2 rest).1, (runLoop step end_ttl s2 rest).2)

/-- The v4 engine worker (src `start_trace_route_on_v4`). -/
def runV4 (proto : TraceRouteProtocol) (max_tries end_ttl : Nat)
    (s : EngineState) (evs : List RecvOutcome) :
    List HopFound × StopReason × EngineState :=
  runLoop (stepV4 proto max_tries) end_ttl s evs

/-- The v6 engine worker (src `start_trace_route_on_v6`); `ip` is the
target address fed to the `addr != ip` comparison of line 569. -/
def runV6 (proto : TraceRouteProtocol) (max_tries end_ttl ip : Nat)
    (s : EngineState) (evs : List RecvOutcome) :
    List HopFound × StopReason × EngineState :=
  runLoop (stepV6 proto max_tries ip) end_ttl s evs

/-- Initial worker state (src lines 361-363 / 523-525): `i = begin_ttl`,
`tries = 0`, `has_changed = false`, `seen` empty. -/
def initState (begin_ttl : Nat) : EngineState :=
  { i := begin_ttl, tries := 0, has_changed := false, seen := [] }

/-! ## Helper lemmas: the IPv4 string parser -/

/-- The digit scan splits its input and its first component is all digits. -/
theorem spanDigits_sound (s : List Nat) :
    s = (spanDigits s).1 ++ (spanDigits s).2 ∧
      ∀ c ∈ (spanDigits s).1, isDecDigit c = true := by
  induction s with
  | nil => simp [spanDigits]
  | cons c cs ih =>
    by_cases h : isDecDigit c
    · simp only [spanDigits, h, if_true]
      refine ⟨by simpa using ih.1, ?_⟩
      intro x hx
      rcases List.mem_cons.mp hx with hx | hx
      · rw [hx]; exact h
      · exact ih.2 x hx
    · simp [spanDigits, h]

/-- The digit scan over an all-digit block followed by a non-digit stops at
that non-digit. -/
theorem spanDigits_append (ds : List Nat) (x : Nat) (t : List Nat)
    (hds : ∀ c ∈ ds, isDecDigit c = true) (hx : isDecDigit x = false) :
    spanDigits (ds ++ x :: t) = (ds, x :: t) := by
  induction ds with
  | nil => simp [spanDigits, hx]
  | cons c cs ih =>
    have hc : isDecDigit c = true := hds c (by simp)
    have ihe := ih (fun d hd => hds d (List.mem_cons_of_mem c hd))
    simp [spanDigits, hc, ihe]

/-- The digit scan over an all-digit string consumes everything. -/
theorem spanDigits_all (ds : List Nat) (hds : ∀ c ∈ ds, isDecDigit c = true) :
    spanDigits ds = (ds, []) := by
  induction ds with
  | nil => rfl
  | cons c cs ih =>
    have hc : isDecDigit c = true := hds c (by simp)
    have ihe := ih (fun d hd => hds d (List.mem_cons_of_mem c hd))
    simp [spanDigits, hc, ihe]

set_option maxRecDepth 8192 in
/-- Finite check over all u8 values: the decimal rendering of an octet is a
valid octet group of digits whose value is the octet. -/
theorem natToDecChars_facts : ∀ n, n < 256 →
    octetOk (natToDecChars n) = true ∧ decValue (natToDecChars n) = n ∧
      ∀ c ∈ natToDecChars n, isDecDigit c = true := by decide

/-- Parsing one octet from its rendering followed by a non-digit. -/
theorem parseOctet_append (n : Nat) (hn : n < 256) (x : Nat) (t : List Nat)
    (hx : isDecDigit x = false) :
    parseOctet (natToDecChars n ++ x :: t) = some (n, x :: t) := by
  obtain ⟨h1, h2, h3⟩ := natToDecChars_facts n hn
  simp [parseOctet, spanDigits_append _ _ _ h3 hx, h1, h2]

/-- Parsing one octet from its rendering alone. -/
theorem parseOctet_all (n : Nat) (hn : n < 256) :
    parseOctet (natToDecChars n) = some (n, []) := by
  obtain ⟨h1, h2, h3⟩ := natToDecChars_facts n hn
  simp [parseOctet, spanDigits_all _ h3, h1, h2]

/-- The std IPv4 display/parse round-trip: parsing the rendered form of a
(u8-valid) IPv4 address gives the address back. -/
theorem ipv4_roundtrip (x : Ipv4Addr) (hv : x.valid) :
    ipv4FromChars (ipv4ToChars x) = some x := by
  obtain ⟨ha, hb, hc, hd⟩ := hv
  have hdot : isDecDigit dotChar = false := by decide
  simp [ipv4ToChars, ipv4FromChars,
    parseOctet_append x.a ha dotChar
      (natToDecChars x.b ++ dotChar :: (natToDecChars x.c ++ dotChar :: natToDecChars x.d)) hdot,
    parseOctet_append x.b hb dotChar
      (natToDecChars x.c ++ dotChar :: natToDecChars x.d) hdot,
    parseOctet_append x.c hc dotChar (natToDecChars x.d) hdot,
    parseOctet_all x.d hd, expectDot]

/-- A successful octet parse consumed only digits. -/
theorem parseOctet_sound (s : List Nat) (n : Nat) (r : List Nat)
    (h : parseOctet s = some (n, r)) :
    ∃ ds, s = ds ++ r ∧ ∀ c ∈ ds, isDecDigit c = true := by
  by_cases hok : octetOk (spanDigits s).1
  · simp only [parseOctet, hok, if_true, Option.some.injEq, Prod.mk.injEq] at h
    refine ⟨(spanDigits s).1, ?_, (spanDigits_sound s).2⟩
    rw [← h.2]
    exact (spanDigits_sound s).1
  · simp [parseOctet, hok] at h

/-- A successful dot consumption means the string started with a dot. -/
theorem expectDot_sound (r rb : List Nat) (h : expectDot r = some rb) :
    r = dotChar :: rb := by
  cases r with
  | nil => simp [expectDot] at h
  | cons c cs =>
    by_cases hc : c = dotChar
    · simp only [expectDot, hc, if_true, Option.some.injEq] at h
      rw [hc, h]
    · simp [expectDot, hc] at h

/-- A string accepted by the IPv4 parser consists of digits and dots only. -/
theorem ipv4FromChars_chars (s : List Nat) (x : Ipv4Addr)
    (h : ipv4FromChars s = some x) :
    ∀ c ∈ s, isDecDigit c = true ∨ c = dotChar := by
  simp only [ipv4FromChars, Option.bind_eq_bind, Option.bind_eq_some] at h
  obtain ⟨⟨a, r1⟩, h1, r1b, hd1, ⟨b, r2⟩, h2, r2b, hd2, ⟨c, r3⟩, h3,
    r3b, hd3, ⟨d, r4⟩, h4, hfin⟩ := h
  obtain ⟨ds1, hs1, hg1⟩ := parseOctet_sound s a r1 h1
  obtain ⟨ds2, hs2, hg2⟩ := parseOctet_sound r1b b r2 h2
  obtain ⟨ds3, hs3, hg3⟩ := parseOctet_sound r2b c r3 h3
  obtain ⟨ds4, hs4, hg4⟩ := parseOctet_sound r3b d r4 h4
  have hr1 := expectDot_sound r1 r1b hd1
  have hr2 := expectDot_sound r2 r2b hd2
  have hr3 := expectDot_sound r3 r3b hd3
  have hr4 : r4 = [] := by
    by_cases h0 : r4 = []
    · exact h0
    · simp [h0] at hfin
  intro ch hch
  rw [hs1, hr1] at hch
  rcases List.mem_append.mp hch with hm | hm
  · exact Or.inl (hg1 ch hm)
  rcases List.mem_cons.mp hm with hm | hm
  · exact Or.inr hm
  rw [hs2, hr2] at hm
  rcases List.mem_append.mp hm with hm | hm
  · exact Or.inl (hg2 ch hm)
  rcases List.mem_cons.mp hm with hm | hm
  · exact Or.inr hm
  rw [hs3, hr3] at hm
  rcases List.mem_append.mp hm with hm | hm
  · exact Or.inl (hg3 ch hm)
  rcases List.mem_cons.mp hm with hm | hm
  · exact Or.inr hm
  rw [hs4, hr4] at hm
  rcases List.mem_append.mp hm with hm | hm
  · exact Or.inl (hg4 ch hm)
  · exact absurd hm (by simp)

/-- A string containing a colon is rejected by the IPv4 parser. -/
theorem ipv4FromChars_colon (s : List Nat) (h : colonChar ∈ s) :
    ipv4FromChars s = none := by
  cases hx : ipv4FromChars s with
  | none => rfl
  | some x =>
    rcases ipv4FromChars_chars s x hx colonChar h with hdig | hdot
    · exact absurd hdig (by decide)
    · exact absurd hdot (by decide)

/-- Joining two or more groups always emits a colon separator. -/
theorem colon_mem_joinColon (g1 g2 : List Nat) (gs : List (List Nat)) :
    colonChar ∈ joinColon (g1 :: g2 :: gs) := by
  simp [joinColon]

/-- Every rendered IPv6 address contains a colon. -/
theorem colon_mem_ipv6ToChars (x : Ipv6Addr) : colonChar ∈ ipv6ToChars x := by
  unfold ipv6ToChars
  by_cases h1 : x.segments = [0, 0, 0, 0, 0, 0, 0, 0]
  · simp [h1]
  · by_cases h2 : x.segments = [0, 0, 0, 0, 0, 0, 0, 1]
    · simp [h1, h2]
    · by_cases h3 : x.s0 = 0 ∧ x.s1 = 0 ∧ x.s2 = 0 ∧ x.s3 = 0 ∧ x.s4 = 0 ∧ x.s5 = 65535
      · simp [h1, h2, h3]
      · by_cases h4 : 1 < (longestZeroRun x.segments).2
        · simp [h1, h2, h3, h4]
        · simp only [h1, h2, h3, h4, if_false]
          simpa [Ipv6Addr.segments] using
            colon_mem_joinColon (natToHexChars x.s0) (natToHexChars x.s1)
              [natToHexChars x.s2, natToHexChars x.s3, natToHexChars x.s4,
               natToHexChars x.s5, natToHexChars x.s6, natToHexChars x.s7]

/-! ## Claim C3 — the IPv6 UDP probe builder -/

/-- Claim C3 counterexample: at the concrete IPv6 target ::1 with the
minimum accepted size 12, building the IPv6 UDP probe does not complete:
`addr.to_string().parse::<Ipv4Addr>().unwrap()` in the checksum step
panics (modelled as `none`), refuting the claim that the build completes
without panicking for every IPv6 target and size at least 12. -/
theorem claim_C3_counterexample :
    buildUdpSendV6 (some ⟨10, 0, 0, 1⟩) ⟨0, 0, 0, 0, 0, 0, 0, 1⟩ 12 33434 1
      ⟨0, 0, 0, 0, 0, 0, 0, 1⟩ 0 = none := by decide

/-- Claim C3 as amended: for every IPv6 target address, size, port, ttl,
local address and random draw, building the IPv6 UDP probe panics — the UDP
checksum step parses the rendered IPv6 target as an IPv4 address, and every
rendered IPv6 address contains a colon, which the IPv4 parser rejects (so
the `unwrap` on line 226 of the source always panics, and no datagram is
ever produced). -/
theorem claim_C3_amended (localV4 : Option Ipv4Addr) (addr : Ipv6Addr)
    (size port ttl : Nat) (my_ip : Ipv6Addr) (rand_source : Nat) :
    buildUdpSendV6 localV4 addr size port ttl my_ip rand_source = none := by
  unfold buildUdpSendV6
  by_cases hsz : size < 8
  · rw [if_pos hsz]
  · rw [if_neg hsz]
    cases localV4 with
    | none => rfl
    | some l =>
      cases hl : ipv4FromChars (ipv4ToChars l) with
      | none => simp [hl]
      | some lv =>
        simp [hl, ipv4FromChars_colon (ipv6ToChars addr) (colon_mem_ipv6ToChars addr)]

/-! ## Claim C6 — rejection of begin_ttl above max_ttl -/

/-- Claim C6 counterexample: with max_ttl = 0 supplied and begin_ttl = 1,
the supplied begin_ttl exceeds the effective max_ttl, yet the constructor
fails with BadMaxTtl (the earlier check), not BadBeginTtl. -/
theorem claim_C6_counterexample :
    TraceRoute.new (some 0) (some 1) none none none none
        (IpAddress.v4 ⟨127, 0, 0, 1⟩) none = Except.error ConfigErr.BadMaxTtl ∧
      ConfigErr.BadMaxTtl ≠ ConfigErr.BadBeginTtl := by
  exact ⟨rfl, by decide⟩

/-- Claim C6 as amended: whenever the supplied begin_ttl exceeds the
effective max_ttl (the supplied max_ttl, or the default 30 when omitted)
and the supplied max_ttl, if any, is at least 1, the constructor fails
with BadBeginTtl; when the supplied max_ttl is 0 it fails earlier with
BadMaxTtl.  In either case construction fails, so no worker is spawned. -/
theorem claim_C6_amended (max_ttl begin_ttl max_tries timeout port size : Option Nat)
    (addr : IpAddress) (protocol : Option TraceRouteProtocol) (b : Nat)
    (hmax : ∀ m, max_ttl = some m → 1 ≤ m)
    (hb : begin_ttl = some b) (hgt : max_ttl.getD 30 < b) :
    TraceRoute.new max_ttl begin_ttl max_tries timeout port size addr protocol =
      Except.error ConfigErr.BadBeginTtl := by
  subst hb
  cases max_ttl with
  | none =>
    simp only [Option.getD] at hgt
    simp [TraceRoute.new, hgt]
  | some m =>
    have h1 : ¬ m < 1 := by have := hmax m rfl; omega
    simp only [Option.getD] at hgt
    simp [TraceRoute.new, h1, hgt]

/-- Claim C6 witness: begin_ttl 40 with the default max_ttl 30 is rejected
with BadBeginTtl. -/
theorem claim_C6_witness :
    TraceRoute.new none (some 40) none none none none
        (IpAddress.v4 ⟨127, 0, 0, 1⟩) none = Except.error ConfigErr.BadBeginTtl :=
  claim_C6_amended none (some 40) none none none none
    (IpAddress.v4 ⟨127, 0, 0, 1⟩) none 40 (fun _ hm => nomatch hm) rfl (by decide)

/-! ## Claim C10 — the constructor performs only the four validations -/

/-- Claim C10: the constructor succeeds exactly when none of the four
checks fires — the supplied max_ttl is not 0, the supplied begin_ttl does
not exceed the effective max_ttl, the supplied size is at least 12 and the
supplied timeout is not 0; in particular max_tries = 0, port = 0 and
begin_ttl = 0 are all accepted. -/
theorem claim_C10 (max_ttl begin_ttl max_tries timeout port size : Option Nat)
    (addr : IpAddress) (protocol : Option TraceRouteProtocol) :
    ((∃ t, TraceRoute.new max_ttl begin_ttl max_tries timeout port size addr protocol =
        Except.ok t) ↔
      (max_ttl ≠ some 0 ∧
        (∀ b, begin_ttl = some b → b ≤ max_ttl.getD 30) ∧
        (∀ s, size = some s → 12 ≤ s) ∧ timeout ≠ some 0)) ∧
    (∃ t, TraceRoute.new none none (some 0) none none none addr protocol = Except.ok t) ∧
    (∃ t, TraceRoute.new none none none none (some 0) none addr protocol = Except.ok t) ∧
    (∃ t, TraceRoute.new none (some 0) none none none none addr protocol = Except.ok t) := by
  refine ⟨?_, ⟨_, rfl⟩, ⟨_, rfl⟩, ⟨_, rfl⟩⟩
  cases max_ttl <;> cases begin_ttl <;> cases size <;> cases timeout <;>
    · simp only [TraceRoute.new, Option.getD]
      split_ifs <;> simp_all

/-! ## Builder field lemmas for the IPv4 probes -/

/-- Field values of a successfully built v4 UDP probe datagram. -/
theorem buildUdpSendV4_fields (l addr : Ipv4Addr) (size port ttl : Nat)
    (my_ip : Ipv4Addr) (r1 r2 : Nat) (hl : l.valid) (haddr : addr.valid)
    (hs : 8 ≤ size) :
    ∃ d, buildUdpSendV4 (some l) addr size port ttl my_ip r1 r2 = some d ∧
      d.flags = 0 ∧ d.fragment_offset = 0 ∧ d.ttl = ttl % 256 ∧
      ∃ u, d.payload = L4Payload.udp u ∧ u.destination = port % 65536 ∧
        u.length = size % 65536 ∧ u.payload = List.replicate (size - 8) 0 := by
  unfold buildUdpSendV4
  rw [if_neg (by omega : ¬ size < 8)]
  simp only [ipv4_roundtrip l hl, ipv4_roundtrip addr haddr]
  exact ⟨_, rfl, rfl, rfl, rfl, _, rfl, rfl, rfl, rfl⟩

/-- Field values of a successfully built v4 ICMP Echo Request probe. -/
theorem buildIcmpSendV4_fields (addr : Ipv4Addr) (size ttl : Nat)
    (my_ip : Ipv4Addr) (r1 r2 r3 : Nat) (haddr : addr.valid) (hs : 8 ≤ size) :
    ∃ d, buildIcmpSendV4 addr size ttl my_ip r1 r2 r3 = some d ∧
      d.flags = 0 ∧ d.fragment_offset = 0 ∧ d.ttl = ttl % 256 ∧
      d.icmpType = some 8 := by
  unfold buildIcmpSendV4
  rw [if_neg (by omega : ¬ size < 8)]
  simp only [ipv4_roundtrip addr haddr]
  exact ⟨_, rfl, rfl, rfl, rfl, rfl⟩

/-! ## Claim C4 — the fragment-offset field of IPv4 probes -/

/-- Claim C4 counterexample: a concrete v4 UDP probe build.  The 16-bit
flags-and-fragment word of the emitted datagram is 0, not 16384: the call
`set_fragment_offset(16384)` writes only the low 13 bits of 16384 (which
are zero) into the 13-bit offset field and never touches the 3-bit flags
field, so the Dont-Fragment flag is not set. -/
theorem claim_C4_counterexample :
    Option.map (fun d => d.flags * 8192 + d.fragment_offset)
        (sendProbeV4 TraceRouteProtocol.Udp (some ⟨10, 0, 0, 1⟩) ⟨93, 184, 216, 34⟩
          12 33434 1 ⟨10, 0, 0, 1⟩ 0 0 0) = some 0 ∧ (0 : Nat) ≠ 16384 := by
  exact ⟨rfl, by decide⟩

/-- Claim C4 as amended: every IPv4 probe datagram (UDP and ICMP mode), for
every requested ttl and every valid size, is emitted with flags = 0 and
fragment offset = 0 — i.e. with the flags-and-fragment word 0, the
Dont-Fragment flag not set, because pnet's 13-bit fragment-offset setter
keeps only 16384 mod 8192 = 0 of the written constant. -/
theorem claim_C4_amended (proto : TraceRouteProtocol) (l addr : Ipv4Addr)
    (size port ttl : Nat) (my_ip : Ipv4Addr) (r1 r2 r3 : Nat)
    (hl : l.valid) (haddr : addr.valid) (hsize : 12 ≤ size) :
    ∃ d, sendProbeV4 proto (some l) addr size port ttl my_ip r1 r2 r3 = some d ∧
      d.flags = 0 ∧ d.fragment_offset = 0 := by
  cases proto with
  | Udp =>
    obtain ⟨d, hd, hf, hfo, -, -⟩ :=
      buildUdpSendV4_fields l addr size ((port + ttl) % 65536) ttl my_ip r1 r2
        hl haddr (by omega)
    exact ⟨d, hd, hf, hfo⟩
  | Icmp =>
    obtain ⟨d, hd, hf, hfo, -, -⟩ :=
      buildIcmpSendV4_fields addr 64 ttl my_ip r1 r2 r3 haddr (by omega)
    exact ⟨d, hd, hf, hfo⟩

/-- Claim C4 witness: both probe modes at a concrete valid input. -/
theorem claim_C4_witness :
    (∃ d, sendProbeV4 TraceRouteProtocol.Udp (some ⟨10, 0, 0, 1⟩) ⟨93, 184, 216, 34⟩
        12 33434 1 ⟨10, 0, 0, 1⟩ 0 0 0 = some d ∧ d.flags = 0 ∧ d.fragment_offset = 0) ∧
    (∃ d, sendProbeV4 TraceRouteProtocol.Icmp (some ⟨10, 0, 0, 1⟩) ⟨93, 184, 216, 34⟩
        12 33434 1 ⟨10, 0, 0, 1⟩ 0 0 0 = some d ∧ d.flags = 0 ∧ d.fragment_offset = 0) :=
  ⟨claim_C4_amended TraceRouteProtocol.Udp ⟨10, 0, 0, 1⟩ ⟨93, 184, 216, 34⟩
      12 33434 1 ⟨10, 0, 0, 1⟩ 0 0 0 (by decide) (by decide) (by decide),
   claim_C4_amended TraceRouteProtocol.Icmp ⟨10, 0, 0, 1⟩ ⟨93, 184, 216, 34⟩
      12 33434 1 ⟨10, 0, 0, 1⟩ 0 0 0 (by decide) (by decide) (by decide)⟩

/-! ## Claim C5 — the probe round-trips its configuration -/

/-- Claim C5 counterexample: with the valid configuration port = 65535 and
ttl = 1 the decoded UDP destination port is 0, not base_port + ttl = 65536
(the u16 addition `port + i as u16` wraps); and with the valid size 70000
the decoded UDP length field is 4464 = 70000 mod 2^16, not 70000 (the
`size as u16` cast truncates). -/
theorem claim_C5_counterexample :
    (Option.map UdpPacket.destination
        ((sendProbeV4 TraceRouteProtocol.Udp (some ⟨10, 0, 0, 1⟩) ⟨93, 184, 216, 34⟩
            12 65535 1 ⟨10, 0, 0, 1⟩ 0 0 0).bind Ipv4Packet.udpPayload) = some 0 ∧
      (0 : Nat) ≠ 65535 + 1) ∧
    (Option.map UdpPacket.length
        ((sendProbeV4 TraceRouteProtocol.Udp (some ⟨10, 0, 0, 1⟩) ⟨93, 184, 216, 34⟩
            70000 33434 1 ⟨10, 0, 0, 1⟩ 0 0 0).bind Ipv4Packet.udpPayload) = some 4464 ∧
      (4464 : Nat) ≠ 70000) := by
  refine ⟨⟨rfl, by decide⟩, ⟨?_, by decide⟩⟩
  obtain ⟨d, hd, -, -, -, u, hu, hdest, hlen, -⟩ :=
    buildUdpSendV4_fields ⟨10, 0, 0, 1⟩ ⟨93, 184, 216, 34⟩ 70000 ((33434 + 1) % 65536)
      1 ⟨10, 0, 0, 1⟩ 0 0 (by decide) (by decide) (by omega)
  show Option.map UdpPacket.length
      ((buildUdpSendV4 (some ⟨10, 0, 0, 1⟩) ⟨93, 184, 216, 34⟩ 70000 ((33434 + 1) % 65536)
          1 ⟨10, 0, 0, 1⟩ 0 0).bind Ipv4Packet.udpPayload) = some 4464
  rw [hd]
  simp [Ipv4Packet.udpPayload, hu, hlen]

/-- Claim C5 as amended: for every valid configuration and engine ttl
(a u8, at most 255), the built probe decodes back to its inputs up to the
u16 width: the IPv4 TTL field equals the requested ttl, the UDP
destination port equals (base_port + ttl) mod 2^16, the UDP length field
equals size mod 2^16 with a zero payload of length size - 8, and in ICMP
mode the ICMP type decodes to Echo Request (8). -/
theorem claim_C5_amended (l addr : Ipv4Addr) (size port ttl : Nat)
    (my_ip : Ipv4Addr) (r1 r2 r3 : Nat) (hl : l.valid) (haddr : addr.valid)
    (hsize : 12 ≤ size) (httl : ttl ≤ 255) :
    (∃ d u, sendProbeV4 TraceRouteProtocol.Udp (some l) addr size port ttl
          my_ip r1 r2 r3 = some d ∧
        d.ttl = ttl ∧ d.payload = L4Payload.udp u ∧
        u.destination = (port + ttl) % 65536 ∧ u.length = size % 65536 ∧
        u.payload = List.replicate (size - 8) 0) ∧
    (∃ d, sendProbeV4 TraceRouteProtocol.Icmp (some l) addr size port ttl
          my_ip r1 r2 r3 = some d ∧
        d.ttl = ttl ∧ d.icmpType = some 8) := by
  constructor
  · obtain ⟨d, hd, -, -, httl2, u, hu, hdest, hlen, hpay⟩ :=
      buildUdpSendV4_fields l addr size ((port + ttl) % 65536) ttl my_ip r1 r2
        hl haddr (by omega)
    refine ⟨d, u, hd, ?_, hu, ?_, hlen, hpay⟩
    · rw [httl2, Nat.mod_eq_of_lt (by omega)]
    · rw [hdest, Nat.mod_mod_of_dvd _ dvd_rfl]
  · obtain ⟨d, hd, -, -, httl2, hty⟩ :=
      buildIcmpSendV4_fields addr 64 ttl my_ip r1 r2 r3 haddr (by omega)
    refine ⟨d, hd, ?_, hty⟩
    rw [httl2, Nat.mod_eq_of_lt (by omega)]

/-- Claim C5 witness: concrete valid configuration, ttl 1, port 33434,
size 12. -/
theorem claim_C5_witness :
    (∃ d u, sendProbeV4 TraceRouteProtocol.Udp (some ⟨10, 0, 0, 1⟩) ⟨93, 184, 216, 34⟩
          12 33434 1 ⟨10, 0, 0, 1⟩ 0 0 0 = some d ∧
        d.ttl = 1 ∧ d.payload = L4Payload.udp u ∧
        u.destination = (33434 + 1) % 65536 ∧ u.length = 12 % 65536 ∧
        u.payload = List.replicate (12 - 8) 0) ∧
    (∃ d, sendProbeV4 TraceRouteProtocol.Icmp (some ⟨10, 0, 0, 1⟩) ⟨93, 184, 216, 34⟩
          12 33434 1 ⟨10, 0, 0, 1⟩ 0 0 0 = some d ∧
        d.ttl = 1 ∧ d.icmpType = some 8) :=
  claim_C5_amended ⟨10, 0, 0, 1⟩ ⟨93, 184, 216, 34⟩ 12 33434 1 ⟨10, 0, 0, 1⟩ 0 0 0
    (by decide) (by decide) (by decide) (by decide)

/-! ## Engine step lemmas -/

/-- Any emission of the `post` phase is addressless, timeless, non-terminal
and carries the pre-step TTL. -/
theorem post_emit (mt : Nat) (s : EngineState) :
    ∀ h ∈ (post mt s).1,
      h.addr = none ∧ h.time = none ∧ h.is_last = false ∧ h.hop_count = s.i := by
  intro h hh
  unfold post at hh
  split at hh
  · simp at hh
    subst hh
    exact ⟨rfl, rfl, rfl, rfl⟩
  · simp at hh

/-- Below the u8 wrap point, the `post` phase never decreases the TTL. -/
theorem post_i_ge (mt : Nat) (s : EngineState) (hle : s.i ≤ 254) :
    s.i ≤ (post mt s).2.i := by
  unfold post
  split
  · show s.i ≤ (s.i + 1) % 256
    omega
  · show s.i ≤ s.i
    omega

/-- With `has_changed` set, the `post` phase emits nothing and keeps the
TTL. -/
theorem post_changed (mt : Nat) (s : EngineState) (hc : s.has_changed = true) :
    (post mt s).1 = [] ∧ (post mt s).2.i = s.i := by
  unfold post
  rw [if_neg (by simp [hc])]
  exact ⟨rfl, rfl⟩

/-- Continuing v4 receive classification: any emission is an intermediate
hop with the responder address, a present time, and the pre-step TTL; the
TTL either stays or advances (with `has_changed` set). -/
theorem recvClassifyV4_cont (p : TraceRouteProtocol) (s : EngineState)
    (a ty t : Nat) (ems1 : List HopFound) (sc : EngineState)
    (hrc : recvClassifyV4 p s a ty t = (ems1, some sc)) :
    (∀ h ∈ ems1, h.is_last = false ∧ h.addr = some a ∧ h.time = some t ∧
      h.hop_count = s.i) ∧
    (sc.i = s.i ∨ (sc.i = (s.i + 1) % 256 ∧ sc.has_changed = true)) := by
  unfold recvClassifyV4 at hrc
  by_cases hmem : a ∈ s.seen
  · rw [if_pos hmem] at hrc
    simp only [Prod.mk.injEq, Option.some.injEq] at hrc
    obtain ⟨rfl, rfl⟩ := hrc
    exact ⟨by simp, Or.inl rfl⟩
  · rw [if_neg hmem] at hrc
    by_cases hty : ty = 11
    · rw [if_pos hty] at hrc
      simp only [Prod.mk.injEq, Option.some.injEq] at hrc
      obtain ⟨rfl, rfl⟩ := hrc
      refine ⟨?_, Or.inr ⟨rfl, rfl⟩⟩
      intro h hh
      rw [List.mem_singleton] at hh
      subst hh
      exact ⟨rfl, rfl, rfl, rfl⟩
    · rw [if_neg hty] at hrc
      cases p with
      | Udp =>
        by_cases h3 : ty = 3
        · rw [if_pos h3] at hrc
          simp at hrc
        · rw [if_neg h3] at hrc
          simp only [Prod.mk.injEq, Option.some.injEq] at hrc
          obtain ⟨rfl, rfl⟩ := hrc
          exact ⟨by simp, Or.inl rfl⟩
      | Icmp =>
        by_cases h0 : ty = 0
        · rw [if_pos h0] at hrc
          simp at hrc
        · rw [if_neg h0] at hrc
          simp only [Prod.mk.injEq, Option.some.injEq] at hrc
          obtain ⟨rfl, rfl⟩ := hrc
          exact ⟨by simp, Or.inl rfl⟩

/-- Breaking v4 receive classification (destination reached): the emission
list is exactly one terminal observation with address, time and the
pre-step TTL. -/
theorem recvClassifyV4_stop (p : TraceRouteProtocol) (s : EngineState)
    (a ty t : Nat) (ems1 : List HopFound)
    (hrc : recvClassifyV4 p s a ty t = (ems1, none)) :
    ems1 = [{ addr := some a, tries := s.tries, hop_count := s.i,
              is_last := true, time := some t }] := by
  unfold recvClassifyV4 at hrc
  by_cases hmem : a ∈ s.seen
  · rw [if_pos hmem] at hrc
    simp at hrc
  · rw [if_neg hmem] at hrc
    by_cases hty : ty = 11
    · rw [if_pos hty] at hrc
      simp at hrc
    · rw [if_neg hty] at hrc
      cases p with
      | Udp =>
        by_cases h3 : ty = 3
        · rw [if_pos h3] at hrc
          simp only [Prod.mk.injEq] at hrc
          exact hrc.1.symm
        · rw [if_neg h3] at hrc
          simp at hrc
      | Icmp =>
        by_cases h0 : ty = 0
        · rw [if_pos h0] at hrc
          simp only [Prod.mk.injEq] at hrc
          exact hrc.1.symm
        · rw [if_neg h0] at hrc
          simp at hrc

/-- Continuing v6 receive classification, as `recvClassifyV4_cont`. -/
theorem recvClassifyV6_cont (p : TraceRouteProtocol) (ip : Nat) (s : EngineState)
    (a ty t : Nat) (ems1 : List HopFound) (sc : EngineState)
    (hrc : recvClassifyV6 p ip s a ty t = (ems1, some sc)) :
    (∀ h ∈ ems1, h.is_last = false ∧ h.addr = some a ∧ h.time = some t ∧
      h.hop_count = s.i) ∧
    (sc.i = s.i ∨ (sc.i = (s.i + 1) % 256 ∧ sc.has_changed = true)) := by
  unfold recvClassifyV6 at hrc
  by_cases hmem : a ∈ s.seen
  · rw [if_pos hmem] at hrc
    simp only [Prod.mk.injEq, Option.some.injEq] at hrc
    obtain ⟨rfl, rfl⟩ := hrc
    exact ⟨by simp, Or.inl rfl⟩
  · rw [if_neg hmem] at hrc
    by_cases hint : ty = 0 ∧ a ≠ ip
    · rw [if_pos hint] at hrc
      simp only [Prod.mk.injEq, Option.some.injEq] at hrc
      obtain ⟨rfl, rfl⟩ := hrc
      refine ⟨?_, Or.inr ⟨rfl, rfl⟩⟩
      intro h hh
      rw [List.mem_singleton] at hh
      subst hh
      exact ⟨rfl, rfl, rfl, rfl⟩
    · rw [if_neg hint] at hrc
      cases p with
      | Udp =>
        by_cases h4 : ty = 4
        · rw [if_pos h4] at hrc
          simp at hrc
        · rw [if_neg h4] at hrc
          simp only [Prod.mk.injEq, Option.some.injEq] at hrc
          obtain ⟨rfl, rfl⟩ := hrc
          exact ⟨by simp, Or.inl rfl⟩
      | Icmp =>
        by_cases h0 : ty = 0
        · rw [if_pos h0] at hrc
          simp at hrc
        · rw [if_neg h0] at hrc
          simp only [Prod.mk.injEq, Option.some.injEq] at hrc
          obtain ⟨rfl, rfl⟩ := hrc
          exact ⟨by simp, Or.inl rfl⟩

/-- Breaking v6 receive classification, as `recvClassifyV4_stop`. -/
theorem recvClassifyV6_stop (p : TraceRouteProtocol) (ip : Nat) (s : EngineState)
    (a ty t : Nat) (ems1 : List HopFound)
    (hrc : recvClassifyV6 p ip s a ty t = (ems1, none)) :
    ems1 = [{ addr := some a, tries := s.tries, hop_count := s.i,
              is_last := true, time := some t }] := by
  unfold recvClassifyV6 at hrc
  by_cases hmem : a ∈ s.seen
  · rw [if_pos hmem] at hrc
    simp at hrc
  · rw [if_neg hmem] at hrc
    by_cases hint : ty = 0 ∧ a ≠ ip
    · rw [if_pos hint] at hrc
      simp at hrc
    · rw [if_neg hint] at hrc
      cases p with
      | Udp =>
        by_cases h4 : ty = 4
        · rw [if_pos h4] at hrc
          simp only [Prod.mk.injEq] at hrc
          exact hrc.1.symm
        · rw [if_neg h4] at hrc
          simp at hrc
      | Icmp =>
        by_cases h0 : ty = 0
        · rw [if_pos h0] at hrc
          simp only [Prod.mk.injEq] at hrc
          exact hrc.1.symm
        · rw [if_neg h0] at hrc
          simp at hrc

/-- Continuing v4 step: every emission is non-terminal, has address and
time present together, and carries the pre-step TTL; below the u8 wrap
point the TTL does not decrease. -/
theorem stepV4_cont (p : TraceRouteProtocol) (mt : Nat) (s : EngineState)
    (e : RecvOutcome) (ems : List HopFound) (s2 : EngineState)
    (hstep : stepV4 p mt s e = (ems, some s2)) :
    (∀ h ∈ ems, h.is_last = false ∧ h.addr.isSome = h.time.isSome ∧
      h.hop_count = s.i) ∧ (s.i ≤ 254 → s.i ≤ s2.i) := by
  cases e with
  | timeout =>
    simp only [stepV4, Prod.mk.injEq, Option.some.injEq] at hstep
    obtain ⟨rfl, rfl⟩ := hstep
    constructor
    · intro h hh
      obtain ⟨h1, h2, h3, h4⟩ := post_emit mt _ h hh
      exact ⟨h3, by rw [h1, h2], h4⟩
    · intro hle
      exact post_i_ge mt { s with has_changed := false } hle
  | pkt a ty t =>
    cases hrc : recvClassifyV4 p s a ty t with
    | mk ems1 os =>
      cases os with
      | none =>
        simp only [stepV4, hrc, Prod.mk.injEq] at hstep
        exact absurd hstep.2 (by simp)
      | some sc =>
        simp only [stepV4, hrc, Prod.mk.injEq, Option.some.injEq] at hstep
        obtain ⟨rfl, rfl⟩ := hstep
        obtain ⟨hm1, hstate⟩ := recvClassifyV4_cont p s a ty t ems1 sc hrc
        constructor
        · intro h hh
          rcases List.mem_append.mp hh with hh | hh
          · obtain ⟨h1, h2, h3, h4⟩ := hm1 h hh
            exact ⟨h1, by rw [h2, h3]; rfl, h4⟩
          · obtain ⟨h1, h2, h3, h4⟩ := post_emit mt sc h hh
            rcases hstate with hsi | ⟨hsi, hchg⟩
            · exact ⟨h3, by rw [h1, h2], by rw [h4, hsi]⟩
            · obtain ⟨hemp, -⟩ := post_changed mt sc hchg
              rw [hemp] at hh
              exact absurd hh (by simp)
        · intro hle
          rcases hstate with hsi | ⟨hsi, hchg⟩
          · have hsc : sc.i ≤ 254 := by rw [hsi]; exact hle
            exact hsi ▸ post_i_ge mt sc hsc
          · obtain ⟨-, hpi⟩ := post_changed mt sc hchg
            rw [hpi, hsi, Nat.mod_eq_of_lt (by omega)]
            omega

/-- Breaking v4 step (destination reached): the emission list is exactly
one terminal observation with address and time present and the pre-step
TTL. -/
theorem stepV4_stop (p : TraceRouteProtocol) (mt : Nat) (s : EngineState)
    (e : RecvOutcome) (ems : List HopFound)
    (hstep : stepV4 p mt s e = (ems, none)) :
    ∃ a t, ems = [{ addr := some a, tries := s.tries, hop_count := s.i,
                    is_last := true, time := some t }] := by
  cases e with
  | timeout =>
    simp only [stepV4, Prod.mk.injEq] at hstep
    exact absurd hstep.2 (by simp)
  | pkt a ty t =>
    cases hrc : recvClassifyV4 p s a ty t with
    | mk ems1 os =>
      cases os with
      | none =>
        simp only [stepV4, hrc, Prod.mk.injEq] at hstep
        exact ⟨a, t, hstep.1 ▸ recvClassifyV4_stop p s a ty t ems1 hrc⟩
      | some sc =>
        simp only [stepV4, hrc, Prod.mk.injEq] at hstep
        exact absurd hstep.2 (by simp)

/-- Continuing v6 step, as `stepV4_cont`. -/
theorem stepV6_cont (p : TraceRouteProtocol) (mt ip : Nat) (s : EngineState)
    (e : RecvOutcome) (ems : List HopFound) (s2 : EngineState)
    (hstep : stepV6 p mt ip s e = (ems, some s2)) :
    (∀ h ∈ ems, h.is_last = false ∧ h.addr.isSome = h.time.isSome ∧
      h.hop_count = s.i) ∧ (s.i ≤ 254 → s.i ≤ s2.i) := by
  cases e with
  | timeout =>
    simp only [stepV6, Prod.mk.injEq, Option.some.injEq] at hstep
    obtain ⟨rfl, rfl⟩ := hstep
    constructor
    · intro h hh
      obtain ⟨h1, h2, h3, h4⟩ := post_emit mt _ h hh
      exact ⟨h3, by rw [h1, h2], h4⟩
    · intro hle
      exact post_i_ge mt { s with has_changed := false } hle
  | pkt a ty t =>
    cases hrc : recvClassifyV6 p ip s a ty t with
    | mk ems1 os =>
      cases os with
      | none =>
        simp only [stepV6, hrc, Prod.mk.injEq] at hstep
        exact absurd hstep.2 (by simp)
      | some sc =>
        simp only [stepV6, hrc, Prod.mk.injEq, Option.some.injEq] at hstep
        obtain ⟨rfl, rfl⟩ := hstep
        obtain ⟨hm1, hstate⟩ := recvClassifyV6_cont p ip s a ty t ems1 sc hrc
        constructor
        · intro h hh
          rcases List.mem_append.mp hh with hh | hh
          · obtain ⟨h1, h2, h3, h4⟩ := hm1 h hh
            exact ⟨h1, by rw [h2, h3]; rfl, h4⟩
          · obtain ⟨h1, h2, h3, h4⟩ := post_emit mt sc h hh
            rcases hstate with hsi | ⟨hsi, hchg⟩
            · exact ⟨h3, by rw [h1, h2], by rw [h4, hsi]⟩
            · obtain ⟨hemp, -⟩ := post_changed mt sc hchg
              rw [hemp] at hh
              exact absurd hh (by simp)
        · intro hle
          rcases hstate with hsi | ⟨hsi, hchg⟩
          · have hsc : sc.i ≤ 254 := by rw [hsi]; exact hle
            exact hsi ▸ post_i_ge mt sc hsc
          · obtain ⟨-, hpi⟩ := post_changed mt sc hchg
            rw [hpi, hsi, Nat.mod_eq_of_lt (by omega)]
            omega

/-- Breaking v6 step, as `stepV4_stop`. -/
theorem stepV6_stop (p : TraceRouteProtocol) (mt ip : Nat) (s : EngineState)
    (e : RecvOutcome) (ems : List HopFound)
    (hstep : stepV6 p mt ip s e = (ems, none)) :
    ∃ a t, ems = [{ addr := some a, tries := s.tries, hop_count := s.i,
                    is_last := true, time := some t }] := by
  cases e with
  | timeout =>
    simp only [stepV6, Prod.mk.injEq] at hstep
    exact absurd hstep.2 (by simp)
  | pkt a ty t =>
    cases hrc : recvClassifyV6 p ip s a ty t with
    | mk ems1 os =>
      cases os with
      | none =>
        simp only [stepV6, hrc, Prod.mk.injEq] at hstep
        exact ⟨a, t, hstep.1 ▸ recvClassifyV6_stop p ip s a ty t ems1 hrc⟩
      | some sc =>
        simp only [stepV6, hrc, Prod.mk.injEq] at hstep
        exact absurd hstep.2 (by simp)

/-! ## Engine loop lemmas -/

/-- Unfolding: when the TTL counter already exceeds max_ttl the loop emits
the terminal observation and stops at once. -/
theorem runLoop_term (step : EngineState → RecvOutcome → List HopFound × Option EngineState)
    (et : Nat) (s : EngineState) (evs : List RecvOutcome) (hgt : et < s.i) :
    runLoop step et s evs =
      ([{ addr := none, tries := s.tries, hop_count := s.i, is_last := true,
          time := none }], StopReason.maxTtl, s) := by
  cases evs <;> simp [runLoop, hgt]

/-- Unfolding: the loop runs out of receive outcomes. -/
theorem runLoop_nil (step : EngineState → RecvOutcome → List HopFound × Option EngineState)
    (et : Nat) (s : EngineState) (hle : ¬ et < s.i) :
    runLoop step et s [] = ([], StopReason.outOfEvents, s) := by
  simp [runLoop, hle]

/-- Unfolding: a breaking step ends the loop with its emissions. -/
theorem runLoop_cons_stop (step : EngineState → RecvOutcome → List HopFound × Option EngineState)
    (et : Nat) (s : EngineState) (e : RecvOutcome) (rest : List RecvOutcome)
    (ems : List HopFound) (hle : ¬ et < s.i) (hstep : step s e = (ems, none)) :
    runLoop step et s (e :: rest) = (ems, StopReason.destReached, s) := by
  simp only [runLoop]
  rw [if_neg hle, hstep]

/-- Unfolding: a continuing step prepends its emissions to the rest of the
run. -/
theorem runLoop_cons (step : EngineState → RecvOutcome → List HopFound × Option EngineState)
    (et : Nat) (s : EngineState) (e : RecvOutcome) (rest : List RecvOutcome)
    (ems : List HopFound) (s2 : EngineState)
    (hle : ¬ et < s.i) (hstep : step s e = (ems, some s2)) :
    runLoop step et s (e :: rest) =
      (ems ++ (runLoop step et s2 rest).1, (runLoop step et s2 rest).2) := by
  simp only [runLoop]
  rw [if_neg hle, hstep]

/-- Generic loop property: when a run stops because the TTL counter came to
exceed max_ttl, the emissions contain exactly one observation with
`is_last`, namely the terminal `{addr: none, hop_count: i, tries, is_last:
true, time: none}` built from the final state, and it is the final
emission. -/
theorem runLoop_maxTtl_spec
    (step : EngineState → RecvOutcome → List HopFound × Option EngineState)
    (et : Nat)
    (hcont : ∀ s e ems s2, step s e = (ems, some s2) → ∀ h ∈ ems, h.is_last = false) :
    ∀ (evs : List RecvOutcome) (s : EngineState) (ems : List HopFound)
      (r : StopReason) (sf : EngineState),
      runLoop step et s evs = (ems, r, sf) → r = StopReason.maxTtl →
      ems.filter (fun h => h.is_last) =
          [{ addr := none, tries := sf.tries, hop_count := sf.i,
             is_last := true, time := none }] ∧
        ems.getLast? =
          some { addr := none, tries := sf.tries, hop_count := sf.i,
                 is_last := true, time := none } ∧
        et < sf.i := by
  intro evs
  induction evs with
  | nil =>
    intro s ems r sf hrun hr
    by_cases hgt : et < s.i
    · rw [runLoop_term step et s [] hgt] at hrun
      simp only [Prod.mk.injEq] at hrun
      obtain ⟨hE, hR, hS⟩ := hrun
      subst hE; subst hS
      exact ⟨rfl, rfl, hgt⟩
    · rw [runLoop_nil step et s hgt] at hrun
      simp only [Prod.mk.injEq] at hrun
      obtain ⟨-, hR, -⟩ := hrun
      rw [← hR] at hr
      exact absurd hr (by decide)
  | cons e rest ih =>
    intro s ems r sf hrun hr
    by_cases hgt : et < s.i
    · rw [runLoop_term step et s (e :: rest) hgt] at hrun
      simp only [Prod.mk.injEq] at hrun
      obtain ⟨hE, hR, hS⟩ := hrun
      subst hE; subst hS
      exact ⟨rfl, rfl, hgt⟩
    · cases hstep : step s e with
      | mk ems0 os =>
        cases os with
        | none =>
          rw [runLoop_cons_stop step et s e rest ems0 hgt hstep] at hrun
          simp only [Prod.mk.injEq] at hrun
          obtain ⟨-, hR, -⟩ := hrun
          rw [← hR] at hr
          exact absurd hr (by decide)
        | some s2 =>
          rw [runLoop_cons step et s e rest ems0 s2 hgt hstep] at hrun
          cases hrec : runLoop step et s2 rest with
          | mk ems' rs =>
            rw [hrec] at hrun
            simp only [Prod.mk.injEq] at hrun
            obtain ⟨hE, hRS⟩ := hrun
            subst hE
            rw [hRS] at hrec
            obtain ⟨f1, f2, f3⟩ := ih s2 ems' r sf hrec hr
            refine ⟨?_, ?_, f3⟩
            · rw [List.filter_append, f1]
              have hnil : ems0.filter (fun h => h.is_last) = [] := by
                rw [List.filter_eq_nil_iff]
                intro x hx
                rw [hcont s e ems0 s2 hstep x hx]
                simp
              rw [hnil, List.nil_append]
            · have hne : ems' ≠ [] := by
                intro hnil
                rw [hnil] at f1
                simp at f1
              rw [List.getLast?_append_of_ne_nil _ hne, f2]

/-- Generic loop property: every emission of a run has its address and its
time present together. -/
theorem runLoop_addrTime_spec
    (step : EngineState → RecvOutcome → List HopFound × Option EngineState)
    (et : Nat)
    (hstepAT : ∀ s e h, h ∈ (step s e).1 → h.addr.isSome = h.time.isSome) :
    ∀ (evs : List RecvOutcome) (s : EngineState) (ems : List HopFound)
      (r : StopReason) (sf : EngineState),
      runLoop step et s evs = (ems, r, sf) →
      ∀ h ∈ ems, h.addr.isSome = h.time.isSome := by
  intro evs
  induction evs with
  | nil =>
    intro s ems r sf hrun h hh
    by_cases hgt : et < s.i
    · rw [runLoop_term step et s [] hgt] at hrun
      simp only [Prod.mk.injEq] at hrun
      obtain ⟨hE, -, -⟩ := hrun
      subst hE
      rw [List.mem_singleton] at hh
      subst hh
      rfl
    · rw [runLoop_nil step et s hgt] at hrun
      simp only [Prod.mk.injEq] at hrun
      obtain ⟨hE, -, -⟩ := hrun
      subst hE
      exact absurd hh (by simp)
  | cons e rest ih =>
    intro s ems r sf hrun h hh
    by_cases hgt : et < s.i
    · rw [runLoop_term step et s (e :: rest) hgt] at hrun
      simp only [Prod.mk.injEq] at hrun
      obtain ⟨hE, -, -⟩ := hrun
      subst hE
      rw [List.mem_singleton] at hh
      subst hh
      rfl
    · cases hstep : step s e with
      | mk ems0 os =>
        cases os with
        | none =>
          rw [runLoop_cons_stop step et s e rest ems0 hgt hstep] at hrun
          simp only [Prod.mk.injEq] at hrun
          obtain ⟨hE, -, -⟩ := hrun
          subst hE
          exact hstepAT s e h (by rw [hstep]; exact hh)
        | some s2 =>
          rw [runLoop_cons step et s e rest ems0 s2 hgt hstep] at hrun
          cases hrec : runLoop step et s2 rest with
          | mk ems' rs =>
            rw [hrec] at hrun
            simp only [Prod.mk.injEq] at hrun
            obtain ⟨hE, hRS⟩ := hrun
            subst hE
            rw [hRS] at hrec
            rcases List.mem_append.mp hh with hh | hh
            · exact hstepAT s e h (by rw [hstep]; exact hh)
            · exact ih s2 ems' r sf hrec h hh

/-- A list whose members all equal one value is a non-decreasing chain. -/
theorem chain_le_of_const (l : List Nat) (v : Nat) (hc : ∀ x ∈ l, x = v) :
    List.Chain' (fun x y => x ≤ y) l := by
  induction l with
  | nil => simp
  | cons a t ih =>
    cases t with
    | nil => simp
    | cons b t2 =>
      rw [List.chain'_cons]
      refine ⟨?_, ih ?_⟩
      · rw [hc a (by simp), hc b (by simp)]
      · intro x hx
        exact hc x (List.mem_cons_of_mem a hx)

/-- Generic loop property: when max_ttl is below the u8 wrap point, the
emitted hop counts are never below the starting TTL and form a
non-decreasing chain. -/
theorem runLoop_chain_spec
    (step : EngineState → RecvOutcome → List HopFound × Option EngineState)
    (et : Nat)
    (hc : ∀ s e ems s2, s.i ≤ 254 → step s e = (ems, some s2) →
        (∀ h ∈ ems, h.hop_count = s.i) ∧ s.i ≤ s2.i)
    (hs : ∀ s e ems, step s e = (ems, none) → ∀ h ∈ ems, h.hop_count = s.i)
    (het : et ≤ 254) :
    ∀ (evs : List RecvOutcome) (s : EngineState) (ems : List HopFound)
      (r : StopReason) (sf : EngineState),
      runLoop step et s evs = (ems, r, sf) →
      (∀ h ∈ ems, s.i ≤ h.hop_count) ∧
        List.Chain' (fun x y => x ≤ y) (ems.map (fun h => h.hop_count)) := by
  intro evs
  induction evs with
  | nil =>
    intro s ems r sf hrun
    by_cases hgt : et < s.i
    · rw [runLoop_term step et s [] hgt] at hrun
      simp only [Prod.mk.injEq] at hrun
      obtain ⟨hE, -, -⟩ := hrun
      subst hE
      exact ⟨by simp, by simp⟩
    · rw [runLoop_nil step et s hgt] at hrun
      simp only [Prod.mk.injEq] at hrun
      obtain ⟨hE, -, -⟩ := hrun
      subst hE
      exact ⟨by simp, by simp⟩
  | cons e rest ih =>
    intro s ems r sf hrun
    by_cases hgt : et < s.i
    · rw [runLoop_term step et s (e :: rest) hgt] at hrun
      simp only [Prod.mk.injEq] at hrun
      obtain ⟨hE, -, -⟩ := hrun
      subst hE
      exact ⟨by simp, by simp⟩
    · cases hstep : step s e with
      | mk ems0 os =>
        cases os with
        | none =>
          rw [runLoop_cons_stop step et s e rest ems0 hgt hstep] at hrun
          simp only [Prod.mk.injEq] at hrun
          obtain ⟨hE, -, -⟩ := hrun
          subst hE
          have hall := hs s e ems0 hstep
          refine ⟨fun h hh => le_of_eq (hall h hh).symm, ?_⟩
          refine chain_le_of_const _ s.i ?_
          intro x hx
          obtain ⟨h, hh, rfl⟩ := List.mem_map.mp hx
          exact hall h hh
        | some s2 =>
          rw [runLoop_cons step et s e rest ems0 s2 hgt hstep] at hrun
          cases hrec : runLoop step et s2 rest with
          | mk ems' rs =>
            rw [hrec] at hrun
            simp only [Prod.mk.injEq] at hrun
            obtain ⟨hE, hRS⟩ := hrun
            subst hE
            rw [hRS] at hrec
            have hle254 : s.i ≤ 254 := by omega
            obtain ⟨hall0, hi2⟩ := hc s e ems0 s2 hle254 hstep
            obtain ⟨htail, hchain⟩ := ih s2 ems' r sf hrec
            constructor
            · intro h hh
              rcases List.mem_append.mp hh with hh | hh
              · exact le_of_eq (hall0 h hh).symm
              · exact le_trans hi2 (htail h hh)
            · rw [List.map_append]
              refine List.Chain'.append ?_ hchain ?_
              · refine chain_le_of_const _ s.i ?_
                intro x hx
                obtain ⟨h, hh, rfl⟩ := List.mem_map.mp hx
                exact hall0 h hh
              · intro x hx y hy
                have hxm : x ∈ ems0.map (fun h => h.hop_count) :=
                  List.mem_of_mem_getLast? hx
                obtain ⟨h1, hh1, rfl⟩ := List.mem_map.mp hxm
                have hym : y ∈ ems'.map (fun h => h.hop_count) :=
                  List.mem_of_mem_head? hy
                obtain ⟨h2, hh2, rfl⟩ := List.mem_map.mp hym
                rw [hall0 h1 hh1]
                exact le_trans hi2 (htail h2 hh2)

/-- Every emission of a v4 step has address and time present together. -/
theorem stepV4_addrTime (p : TraceRouteProtocol) (mt : Nat) (s : EngineState)
    (e : RecvOutcome) (h : HopFound) (hh : h ∈ (stepV4 p mt s e).1) :
    h.addr.isSome = h.time.isSome := by
  cases hst : stepV4 p mt s e with
  | mk ems os =>
    rw [hst] at hh
    change h ∈ ems at hh
    cases os with
    | none =>
      obtain ⟨a, t, he⟩ := stepV4_stop p mt s e ems hst
      rw [he, List.mem_singleton] at hh
      subst hh
      rfl
    | some s2 =>
      exact ((stepV4_cont p mt s e ems s2 hst).1 h hh).2.1

/-- Every emission of a v6 step has address and time present together. -/
theorem stepV6_addrTime (p : TraceRouteProtocol) (mt ip : Nat) (s : EngineState)
    (e : RecvOutcome) (h : HopFound) (hh : h ∈ (stepV6 p mt ip s e).1) :
    h.addr.isSome = h.time.isSome := by
  cases hst : stepV6 p mt ip s e with
  | mk ems os =>
    rw [hst] at hh
    change h ∈ ems at hh
    cases os with
    | none =>
      obtain ⟨a, t, he⟩ := stepV6_stop p mt ip s e ems hst
      rw [he, List.mem_singleton] at hh
      subst hh
      rfl
    | some s2 =>
      exact ((stepV6_cont p mt ip s e ems s2 hst).1 h hh).2.1

/-! ## Claim C1 — ICMPv6 Echo Reply (type 129) in the v6 ICMP engine -/

/-- Claim C1, evaluation at the failing input: in the IPv6 engine in ICMP
mode, a packet from the new source 77 with ICMPv6 type 129 (Echo Reply) is
NOT classified as destination-reached: the engine emits nothing, does not
stop, does not advance, and merely inserts the source into `seen` and
counts the iteration toward the retry budget.  (The code compares against
ICMPv6 type 0 — line 603 of the source — instead of 129; the run with a
type-0 packet from the target itself, second conjunct, is what the code
actually classifies as destination-reached.) -/
theorem claim_C1_code_eval :
    runV6 TraceRouteProtocol.Icmp 4 30 9 ⟨1, 0, false, []⟩
        [RecvOutcome.pkt 77 129 5] =
      ([], StopReason.outOfEvents, ⟨1, 1, false, [77]⟩) ∧
    runV6 TraceRouteProtocol.Icmp 4 30 9 ⟨1, 0, false, []⟩
        [RecvOutcome.pkt 9 0 5] =
      ([{ addr := some 9, tries := 0, hop_count := 1, is_last := true,
          time := some 5 }],
       StopReason.destReached, ⟨1, 0, false, []⟩) := by
  exact ⟨by decide, by decide⟩

/-! ## Claim C2 — the duplicate-responder tries decrement -/

/-- Claim C2 counterexample: in the IPv6 engine a duplicate received while
tries = 0 underflows the u16 counter to 65535 (wrapping subtraction),
whereas the guarded IPv4 path keeps it at 0. -/
theorem claim_C2_counterexample :
    recvClassifyV6 TraceRouteProtocol.Icmp 9 ⟨2, 0, true, [5]⟩ 5 11 3 =
      ([], some ⟨2, 65535, true, [5]⟩) ∧
    recvClassifyV4 TraceRouteProtocol.Icmp ⟨2, 0, true, [5]⟩ 5 11 3 =
      ([], some ⟨2, 0, true, [5]⟩) := by
  exact ⟨by decide, by decide⟩

/-- Claim C2 as amended: on a packet from an already-seen source, the IPv4
engine decrements `tries` only when it is positive (equivalently, performs
the saturating decrement `tries - 1` on Nat), while the IPv6 engine
decrements unconditionally with wrapping u16 arithmetic,
`(tries + 65535) % 65536`, which underflows to 65535 when tries = 0.
Neither path emits anything or advances. -/
theorem claim_C2_amended (proto : TraceRouteProtocol) (ip : Nat)
    (s : EngineState) (a ty t : Nat) (hmem : a ∈ s.seen) :
    recvClassifyV4 proto s a ty t = ([], some { s with tries := s.tries - 1 }) ∧
    recvClassifyV6 proto ip s a ty t =
      ([], some { s with tries := (s.tries + 65535) % 65536 }) := by
  constructor
  · unfold recvClassifyV4
    rw [if_pos hmem]
    rcases Nat.eq_zero_or_pos s.tries with h0 | hpos
    · rw [if_neg (by omega), h0]
    · rw [if_pos hpos]
  · unfold recvClassifyV6
    rw [if_pos hmem]

/-- Claim C2 witness: a duplicate from source 3 at tries = 0. -/
theorem claim_C2_witness :
    recvClassifyV4 TraceRouteProtocol.Udp ⟨1, 0, false, [3]⟩ 3 11 2 =
      ([], some ⟨1, 0, false, [3]⟩) ∧
    recvClassifyV6 TraceRouteProtocol.Udp 9 ⟨1, 0, false, [3]⟩ 3 11 2 =
      ([], some ⟨1, 65535, false, [3]⟩) :=
  claim_C2_amended TraceRouteProtocol.Udp 9 ⟨1, 0, false, [3]⟩ 3 11 2 (by decide)

/-! ## Claim C7 — the max-TTL terminal observation -/

/-- Claim C7: in every trace run (either engine, any protocol mode) that
stops because the TTL counter came to exceed max_ttl, the emitted sequence
contains exactly one observation with `is_last = true` — the terminal
`{addr: none, hop_count: i, tries, is_last: true, time: none}` built from
the state at the stop, whose hop count exceeds max_ttl — and it is the
final emission of the trace. -/
theorem claim_C7 (proto : TraceRouteProtocol) (max_tries end_ttl ip : Nat)
    (s : EngineState) (evs : List RecvOutcome)
    (ems4 ems6 : List HopFound) (r4 r6 : StopReason) (sf4 sf6 : EngineState)
    (hrun4 : runV4 proto max_tries end_ttl s evs = (ems4, r4, sf4))
    (hrun6 : runV6 proto max_tries end_ttl ip s evs = (ems6, r6, sf6)) :
    (r4 = StopReason.maxTtl →
      ems4.filter (fun h => h.is_last) =
          [{ addr := none, tries := sf4.tries, hop_count := sf4.i,
             is_last := true, time := none }] ∧
        ems4.getLast? =
          some { addr := none, tries := sf4.tries, hop_count := sf4.i,
                 is_last := true, time := none } ∧
        end_ttl < sf4.i) ∧
    (r6 = StopReason.maxTtl →
      ems6.filter (fun h => h.is_last) =
          [{ addr := none, tries := sf6.tries, hop_count := sf6.i,
             is_last := true, time := none }] ∧
        ems6.getLast? =
          some { addr := none, tries := sf6.tries, hop_count := sf6.i,
                 is_last := true, time := none } ∧
        end_ttl < sf6.i) := by
  constructor
  · intro hr
    exact runLoop_maxTtl_spec (stepV4 proto max_tries) end_ttl
      (fun sx e ems s2 hst h hh =>
        ((stepV4_cont proto max_tries sx e ems s2 hst).1 h hh).1)
      evs s ems4 r4 sf4 hrun4 hr
  · intro hr
    exact runLoop_maxTtl_spec (stepV6 proto max_tries ip) end_ttl
      (fun sx e ems s2 hst h hh =>
        ((stepV6_cont proto max_tries ip sx e ems s2 hst).1 h hh).1)
      evs s ems6 r6 sf6 hrun6 hr

/-- Claim C7 witness: a one-event run with max_ttl 1, max_tries 1 and a
timeout, on both engines. -/
theorem claim_C7_witness :
    (([{ addr := none, tries := 1, hop_count := 1, is_last := false, time := none },
       { addr := none, tries := 0, hop_count := 2, is_last := true, time := none }] :
        List HopFound).filter (fun h => h.is_last) =
        [{ addr := none, tries := 0, hop_count := 2, is_last := true, time := none }] ∧
      ([{ addr := none, tries := 1, hop_count := 1, is_last := false, time := none },
        { addr := none, tries := 0, hop_count := 2, is_last := true, time := none }] :
        List HopFound).getLast? =
        some { addr := none, tries := 0, hop_count := 2, is_last := true, time := none } ∧
      1 < 2) ∧
    (([{ addr := none, tries := 1, hop_count := 1, is_last := false, time := none },
       { addr := none, tries := 0, hop_count := 2, is_last := true, time := none }] :
        List HopFound).filter (fun h => h.is_last) =
        [{ addr := none, tries := 0, hop_count := 2, is_last := true, time := none }] ∧
      ([{ addr := none, tries := 1, hop_count := 1, is_last := false, time := none },
        { addr := none, tries := 0, hop_count := 2, is_last := true, time := none }] :
        List HopFound).getLast? =
        some { addr := none, tries := 0, hop_count := 2, is_last := true, time := none } ∧
      1 < 2) := by
  have h := claim_C7 TraceRouteProtocol.Udp 1 1 0 ⟨1, 0, false, []⟩
    [RecvOutcome.timeout]
    [{ addr := none, tries := 1, hop_count := 1, is_last := false, time := none },
     { addr := none, tries := 0, hop_count := 2, is_last := true, time := none }]
    [{ addr := none, tries := 1, hop_count := 1, is_last := false, time := none },
     { addr := none, tries := 0, hop_count := 2, is_last := true, time := none }]
    StopReason.maxTtl StopReason.maxTtl ⟨2, 0, false, []⟩ ⟨2, 0, false, []⟩
    (by decide) (by decide)
  exact ⟨h.1 rfl, h.2 rfl⟩

/-! ## Claim C8 — address and time are present together -/

/-- Claim C8: in every observation emitted by either engine in any
protocol mode, the `addr` field is present exactly when the `time` field
is present. -/
theorem claim_C8 (proto : TraceRouteProtocol) (max_tries end_ttl ip : Nat)
    (s : EngineState) (evs : List RecvOutcome) (h : HopFound) :
    (h ∈ (runV4 proto max_tries end_ttl s evs).1 →
      h.addr.isSome = h.time.isSome) ∧
    (h ∈ (runV6 proto max_tries end_ttl ip s evs).1 →
      h.addr.isSome = h.time.isSome) := by
  constructor
  · intro hh
    exact runLoop_addrTime_spec (stepV4 proto max_tries) end_ttl
      (fun sx e hx hhx => stepV4_addrTime proto max_tries sx e hx hhx)
      evs s (runV4 proto max_tries end_ttl s evs).1
      (runV4 proto max_tries end_ttl s evs).2.1
      (runV4 proto max_tries end_ttl s evs).2.2 rfl h hh
  · intro hh
    exact runLoop_addrTime_spec (stepV6 proto max_tries ip) end_ttl
      (fun sx e hx hhx => stepV6_addrTime proto max_tries ip sx e hx hhx)
      evs s (runV6 proto max_tries end_ttl ip s evs).1
      (runV6 proto max_tries end_ttl ip s evs).2.1
      (runV6 proto max_tries end_ttl ip s evs).2.2 rfl h hh

/-- Claim C8 witness: the terminal observation of an immediate max-TTL stop
has neither address nor time. -/
theorem claim_C8_witness :
    ({ addr := none, tries := 0, hop_count := 2, is_last := true,
       time := none } : HopFound).addr.isSome =
      ({ addr := none, tries := 0, hop_count := 2, is_last := true,
         time := none } : HopFound).time.isSome :=
  (claim_C8 TraceRouteProtocol.Udp 4 1 0 ⟨2, 0, false, []⟩ []
    { addr := none, tries := 0, hop_count := 2, is_last := true,
      time := none }).1 (by decide)

/-! ## Claim C9 — monotone hop counts -/

/-- Claim C9 counterexample: with the valid configuration max_ttl = 255
(and begin_ttl = 255, max_tries = 1), an intermediate hop at TTL 255 wraps
the u8 TTL counter to 0, and a subsequent retry-exhaust emission carries
hop_count 0 after one with hop_count 255 — the emitted hop_count sequence
[255, 0] is not monotonically non-decreasing. -/
theorem claim_C9_counterexample :
    ¬ List.Chain' (fun x y => x ≤ y)
        ((runV4 TraceRouteProtocol.Udp 1 255 ⟨255, 0, false, []⟩
            [RecvOutcome.pkt 7 11 2, RecvOutcome.timeout]).1.map
          (fun h => h.hop_count)) := by
  have hmap : (runV4 TraceRouteProtocol.Udp 1 255 ⟨255, 0, false, []⟩
      [RecvOutcome.pkt 7 11 2, RecvOutcome.timeout]).1.map
        (fun h => h.hop_count) = [255, 0] := by decide
  rw [hmap, List.chain'_cons]
  exact fun hcon => absurd hcon.1 (by omega)

/-- Claim C9 as amended: for every trace run of either engine whose
max_ttl is at most 254 (so the u8 TTL counter never wraps), the sequence
of hop_count values carried by the emitted observations, in emission
order, is monotonically non-decreasing. -/
theorem claim_C9_amended (proto : TraceRouteProtocol) (max_tries end_ttl ip : Nat)
    (s : EngineState) (evs : List RecvOutcome) (hle : end_ttl ≤ 254) :
    List.Chain' (fun x y => x ≤ y)
        ((runV4 proto max_tries end_ttl s evs).1.map (fun h => h.hop_count)) ∧
    List.Chain' (fun x y => x ≤ y)
        ((runV6 proto max_tries end_ttl ip s evs).1.map (fun h => h.hop_count)) := by
  constructor
  · exact (runLoop_chain_spec (stepV4 proto max_tries) end_ttl
      (fun sx e ems s2 h254 hst =>
        ⟨fun h hh => ((stepV4_cont proto max_tries sx e ems s2 hst).1 h hh).2.2,
         (stepV4_cont proto max_tries sx e ems s2 hst).2 h254⟩)
      (fun sx e ems hst h hh => by
        obtain ⟨a, t, he⟩ := stepV4_stop proto max_tries sx e ems hst
        rw [he, List.mem_singleton] at hh
        subst hh
        rfl)
      hle evs s (runV4 proto max_tries end_ttl s evs).1
      (runV4 proto max_tries end_ttl s evs).2.1
      (runV4 proto max_tries end_ttl s evs).2.2 rfl).2
  · exact (runLoop_chain_spec (stepV6 proto max_tries ip) end_ttl
      (fun sx e ems s2 h254 hst =>
        ⟨fun h hh => ((stepV6_cont proto max_tries ip sx e ems s2 hst).1 h hh).2.2,
         (stepV6_cont proto max_tries ip sx e ems s2 hst).2 h254⟩)
      (fun sx e ems hst h hh => by
        obtain ⟨a, t, he⟩ := stepV6_stop proto max_tries ip sx e ems hst
        rw [he, List.mem_singleton] at hh
        subst hh
        rfl)
      hle evs s (runV6 proto max_tries end_ttl ip s evs).1
      (runV6 proto max_tries end_ttl ip s evs).2.1
      (runV6 proto max_tries end_ttl ip s evs).2.2 rfl).2

/-- Claim C9 witness: a concrete run with max_ttl 30. -/
theorem claim_C9_witness :
    List.Chain' (fun x y => x ≤ y)
        ((runV4 TraceRouteProtocol.Udp 1 30 ⟨1, 0, false, []⟩
            [RecvOutcome.pkt 7 11 2, RecvOutcome.timeout]).1.map
          (fun h => h.hop_count)) ∧
    List.Chain' (fun x y => x ≤ y)
        ((runV6 TraceRouteProtocol.Udp 1 30 9 ⟨1, 0, false, []⟩
            [RecvOutcome.pkt 7 11 2, RecvOutcome.timeout]).1.map
          (fun h => h.hop_count)) :=
  claim_C9_amended TraceRouteProtocol.Udp 1 30 9 ⟨1, 0, false, []⟩
    [RecvOutcome.pkt 7 11 2, RecvOutcome.timeout] (by decide)
